import Mathlib

/-!
Shallow embedding of the forward-Euler logistic-growth cell of
`notebooks/Rwanda24/16-Tue-DynSys/Dynamical Systems and ODEs.ipynb`.

The executable content of the notebook is:

  M = 100; k = .01; dt = 0.1; Tmax = 10; y0 = 2.0
  times = np.arange(0, Tmax, dt)
  y = np.empty_like(times)
  y[0] = y0
  for i in range(len(times) - 1):
      y[i+1] = y[i] + dt * k * y[i] * (M - y[i])

We model real/float values by rationals.  `np.arange(0, Tmax, dt)` has
`max 0 ⌈Tmax/dt⌉` points `0, dt, 2·dt, …` (and raises `ZeroDivisionError`
for `dt = 0`); `np.empty_like` produces an array of uninitialized cells,
modelled as `none`; the assignment `y[0] = y0` raises `IndexError` when the
grid is empty.  `simulate` is the whole cell, returning either the raised
error or the pair (time grid, state array).
-/

namespace DynSys

/-- Number of points of `np.arange(0, Tmax, dt)` for a nonzero step `dt`:
`max 0 ⌈Tmax/dt⌉`, which `Int.toNat` computes. -/
def arangeLen (dt Tmax : ℚ) : ℕ :=
  (⌈Tmax / dt⌉).toNat

/-- The time grid `times = np.arange(0, Tmax, dt)`: points `i * dt` for
`i = 0, …, arangeLen dt Tmax - 1`. -/
def times (dt Tmax : ℚ) : List ℚ :=
  (List.range (arangeLen dt Tmax)).map (fun i : ℕ => (i : ℚ) * dt)

/-- The right-hand side of the update line: `y + dt * k * y * (M - y)`. -/
def eulerStep (k M dt y : ℚ) : ℚ :=
  y + dt * k * y * (M - y)

/-- `np.empty_like(times)`: an array of `n` uninitialized cells; `none`
stands for an undefined (garbage) cell. -/
def emptyLike (n : ℕ) : List (Option ℚ) :=
  List.replicate n none

/-- The body of loop iteration `i`: `y[i+1] = y[i] + dt * k * y[i] * (M - y[i])`,
reading cell `i` (possibly undefined) and writing cell `i+1`. -/
def loopBody (k M dt : ℚ) (y : List (Option ℚ)) (i : ℕ) : List (Option ℚ) :=
  y.set (i + 1) (Option.map (eulerStep k M dt) (y.getD i none))

/-- The first `n` iterations of `for i in range(len(times) - 1)`. -/
def eulerLoop (k M dt : ℚ) (y : List (Option ℚ)) : ℕ → List (Option ℚ)
  | 0 => y
  | n + 1 => loopBody k M dt (eulerLoop k M dt y n) n

/-- Errors the cell can raise: `ZeroDivisionError` from `np.arange` when
`dt = 0`, and `IndexError` from `y[0] = y0` when the grid is empty. -/
inductive PyError where
  | zeroDivision
  | indexError
deriving DecidableEq

/-- The whole integration cell: build the grid (raising on `dt = 0`),
allocate `y`, write `y[0]` (raising on an empty grid), run the loop. -/
def simulate (k M dt Tmax y0 : ℚ) : Except PyError (List ℚ × List (Option ℚ)) :=
  if dt = 0 then .error .zeroDivision
  else
    let ts := times dt Tmax
    if ts.length = 0 then .error .indexError
    else .ok (ts, eulerLoop k M dt ((emptyLike ts.length).set 0 (some y0)) (ts.length - 1))

/-- The mathematical forward-Euler recurrence
`y₀ = y0`, `y_{n+1} = y_n + dt * k * y_n * (M - y_n)`. -/
def eulerSeq (k M dt y0 : ℚ) : ℕ → ℚ
  | 0 => y0
  | n + 1 => eulerStep k M dt (eulerSeq k M dt y0 n)

/-- The state array after the loop has filled cells `0, …, m`:
cell `i` holds `eulerSeq … i` for `i ≤ m` and is still undefined beyond. -/
def fillUpTo (k M dt y0 : ℚ) (m N : ℕ) : List (Option ℚ) :=
  (List.range N).map (fun i => if i ≤ m then some (eulerSeq k M dt y0 i) else none)

theorem length_fillUpTo (k M dt y0 : ℚ) (m N : ℕ) :
    (fillUpTo k M dt y0 m N).length = N := by
  simp [fillUpTo]

theorem getElem?_fillUpTo (k M dt y0 : ℚ) (m N j : ℕ) :
    (fillUpTo k M dt y0 m N)[j]? =
      if j < N then some (if j ≤ m then some (eulerSeq k M dt y0 j) else none)
      else none := by
  rcases Nat.lt_or_ge j N with h | h
  · simp [fillUpTo, List.getElem?_map, List.getElem?_range h, h]
  · have : (fillUpTo k M dt y0 m N)[j]? = none := by
      apply List.getElem?_eq_none
      simpa [length_fillUpTo] using h
    simp [this, Nat.not_lt.mpr h]

theorem init_eq_fillUpTo (k M dt y0 : ℚ) (N : ℕ) :
    (emptyLike N).set 0 (some y0) = fillUpTo k M dt y0 0 N := by
  apply List.ext_getElem?
  intro j
  rw [getElem?_fillUpTo, List.getElem?_set]
  rcases Nat.eq_zero_or_pos j with rfl | hj
  · simp [emptyLike, eulerSeq]
  · have hj0 : ¬ (0 = j) := by omega
    have hj1 : ¬ (j ≤ 0) := by omega
    simp [hj0, hj1, emptyLike, List.getElem?_replicate]

theorem loopBody_fillUpTo (k M dt y0 : ℚ) {m N : ℕ} (h : m + 1 < N) :
    loopBody k M dt (fillUpTo k M dt y0 m N) m = fillUpTo k M dt y0 (m + 1) N := by
  have hmN : m < N := by omega
  have hget : (fillUpTo k M dt y0 m N).getD m none = some (eulerSeq k M dt y0 m) := by
    rw [List.getD_eq_getElem?_getD, getElem?_fillUpTo]
    simp [hmN]
  apply List.ext_getElem?
  intro j
  rw [loopBody, hget, List.getElem?_set, getElem?_fillUpTo, getElem?_fillUpTo,
    length_fillUpTo]
  rcases eq_or_ne (m + 1) j with rfl | hne
  · simp [h, eulerSeq]
  · have : (j ≤ m) = (j ≤ m + 1) := by
      apply propext
      constructor
      · omega
      · omega
    simp [hne, this]

theorem eulerLoop_fillUpTo (k M dt y0 : ℚ) {N : ℕ} (hN : 0 < N) :
    ∀ m, m ≤ N - 1 →
      eulerLoop k M dt (fillUpTo k M dt y0 0 N) m = fillUpTo k M dt y0 m N
  | 0, _ => rfl
  | m + 1, h => by
    rw [eulerLoop, eulerLoop_fillUpTo k M dt y0 hN m (by omega),
      loopBody_fillUpTo k M dt y0 (by omega)]

theorem fillUpTo_last (k M dt y0 : ℚ) (N : ℕ) :
    fillUpTo k M dt y0 (N - 1) N =
      (List.range N).map (fun i => some (eulerSeq k M dt y0 i)) := by
  unfold fillUpTo
  apply List.map_congr_left
  intro i hi
  have : i ≤ N - 1 := by
    have := List.mem_range.mp hi
    omega
  simp [this]

theorem length_times (dt Tmax : ℚ) : (times dt Tmax).length = arangeLen dt Tmax := by
  rw [times, List.length_map, List.length_range]

/-- Bridge: on any configuration with `dt ≠ 0` and a non-empty grid, the cell
succeeds and the state array is exactly the Euler recurrence sampled on the
grid indices. -/
theorem simulate_ok (k M dt Tmax y0 : ℚ) (hdt : dt ≠ 0)
    (hN : 0 < arangeLen dt Tmax) :
    simulate k M dt Tmax y0 =
      .ok (times dt Tmax,
        (List.range (arangeLen dt Tmax)).map (fun i => some (eulerSeq k M dt y0 i))) := by
  have hlen : (times dt Tmax).length = arangeLen dt Tmax := length_times dt Tmax
  have hne : ¬ ((times dt Tmax).length = 0) := by omega
  rw [simulate, if_neg hdt]
  simp only [hne, if_false, hlen]
  rw [init_eq_fillUpTo k M dt y0,
    eulerLoop_fillUpTo k M dt y0 hN (arangeLen dt Tmax - 1) le_rfl,
    fillUpTo_last, if_neg (by omega)]

theorem arangeLen_pos {dt Tmax : ℚ} (hdt : 0 < dt) (hT : 0 < Tmax) :
    0 < arangeLen dt Tmax := by
  have h : (0 : ℤ) < ⌈Tmax / dt⌉ := Int.ceil_pos.mpr (div_pos hT hdt)
  unfold arangeLen
  omega

theorem arangeLen_eq_zero_of_div_nonpos {dt Tmax : ℚ} (h : Tmax / dt ≤ 0) :
    arangeLen dt Tmax = 0 := by
  have h2 : ⌈Tmax / dt⌉ ≤ 0 := Int.ceil_le.mpr (by exact_mod_cast h)
  unfold arangeLen
  omega

theorem getD_map_eulerSeq (k M dt y0 : ℚ) {N j : ℕ} (hj : j < N) :
    ((List.range N).map (fun i => some (eulerSeq k M dt y0 i))).getD j none =
      some (eulerSeq k M dt y0 j) := by
  rw [List.getD_eq_getElem?_getD, List.getElem?_map, List.getElem?_range hj]
  rfl

theorem length_map_eulerSeq (k M dt y0 : ℚ) (N : ℕ) :
    ((List.range N).map (fun i => some (eulerSeq k M dt y0 i))).length = N := by
  rw [List.length_map, List.length_range]

/-- Inversion: a successful run forces `dt ≠ 0`, a non-empty grid, and pins
down both returned lists. -/
theorem simulate_ok_inv {k M dt Tmax y0 : ℚ} {ts : List ℚ} {ys : List (Option ℚ)}
    (h : simulate k M dt Tmax y0 = .ok (ts, ys)) :
    dt ≠ 0 ∧ 0 < arangeLen dt Tmax ∧ ts = times dt Tmax ∧
      ys = (List.range (arangeLen dt Tmax)).map (fun i => some (eulerSeq k M dt y0 i)) := by
  have hdt : dt ≠ 0 := by
    intro hdt
    rw [simulate, if_pos hdt] at h
    cases h
  have hN : 0 < arangeLen dt Tmax := by
    by_contra hN
    have h0 : (times dt Tmax).length = 0 := by rw [length_times]; omega
    rw [simulate, if_neg hdt] at h
    simp only [h0, if_pos] at h
    cases h
  rw [simulate_ok k M dt Tmax y0 hdt hN] at h
  simp only [Except.ok.injEq, Prod.mk.injEq] at h
  exact ⟨hdt, hN, h.1.symm, h.2.symm⟩

theorem eulerSeq_of_fixed_point (k M dt y0 : ℚ) (h0 : y0 = 0 ∨ y0 = M) :
    ∀ n, eulerSeq k M dt y0 n = y0
  | 0 => rfl
  | n + 1 => by
    rw [eulerSeq, eulerSeq_of_fixed_point k M dt y0 h0 n]
    rcases h0 with h | h <;> subst h <;> simp [eulerStep]

/-- Both runs of `runTwice` call the integration cell on the same inputs. -/
def runTwice (k M dt Tmax y0 : ℚ) :
    Except PyError (List ℚ × List (Option ℚ)) × Except PyError (List ℚ × List (Option ℚ)) :=
  (simulate k M dt Tmax y0, simulate k M dt Tmax y0)

/-- Claim C1: for every step index `i` with `i + 1` still inside the
trajectory, the value at `i + 1` is `y[i] + dt * k * y[i] * (M - y[i])`:
each new value depends only on the immediately preceding value and the
fixed step size. -/
theorem claim_C1 (k M dt Tmax y0 : ℚ) (ts : List ℚ) (ys : List (Option ℚ))
    (h : simulate k M dt Tmax y0 = .ok (ts, ys)) (i : ℕ) (hi : i + 1 < ys.length) :
    ∃ v, ys.getD i none = some v ∧
      ys.getD (i + 1) none = some (v + dt * k * v * (M - v)) := by
  obtain ⟨-, -, -, hys⟩ := simulate_ok_inv h
  subst hys
  rw [length_map_eulerSeq] at hi
  refine ⟨eulerSeq k M dt y0 i, getD_map_eulerSeq k M dt y0 (by omega), ?_⟩
  rw [getD_map_eulerSeq k M dt y0 hi]
  rfl

/-- Claim C1 witness: the run with `k = M = dt = 1`, `Tmax = 2`, `y0 = 1`
produces `[some 1, some 1]`, and step 0 satisfies the update equation. -/
theorem claim_C1_witness :
    ∃ v, ([some (1 : ℚ), some 1].getD 0 none = some v ∧
      [some (1 : ℚ), some 1].getD 1 none = some (v + 1 * 1 * v * (1 - v))) := by
  refine claim_C1 1 1 1 2 1 [0, 1] [some 1, some 1] ?_ 0 (by norm_num)
  have hN : arangeLen 1 2 = 2 := by norm_num [arangeLen]; try rfl
  rw [simulate_ok 1 1 1 2 1 (by norm_num) (by omega)]
  rw [show times 1 2 = [0, 1] by
    simp [times, hN, List.range_succ]]
  rw [hN]
  simp [List.range_succ, eulerSeq, eulerStep]

/-- Claim C2: for `dt > 0` and `Tmax > 0` the grid has `⌈Tmax/dt⌉` points,
point `i` is `i * dt`, the grid points are exactly the multiples of `dt`
strictly below `Tmax`, and the cell succeeds with a trajectory of the same
length as the grid. -/
theorem claim_C2 (k M dt Tmax y0 : ℚ) (hdt : 0 < dt) (hT : 0 < Tmax) :
    (times dt Tmax).length = (⌈Tmax / dt⌉).toNat ∧
    simulate k M dt Tmax y0 =
      .ok (times dt Tmax,
        (List.range ((times dt Tmax).length)).map (fun i => some (eulerSeq k M dt y0 i))) ∧
    ((List.range ((times dt Tmax).length)).map
        (fun i => some (eulerSeq k M dt y0 i))).length = (times dt Tmax).length ∧
    (∀ i : ℕ, i < (times dt Tmax).length → (times dt Tmax).getD i 0 = (i : ℚ) * dt) ∧
    (∀ n : ℕ, ((n : ℚ) * dt < Tmax ↔ n < (times dt Tmax).length)) := by
  have hlen : (times dt Tmax).length = arangeLen dt Tmax := length_times dt Tmax
  refine ⟨hlen, ?_, by rw [length_map_eulerSeq], ?_, ?_⟩
  · rw [hlen, simulate_ok k M dt Tmax y0 hdt.ne' (arangeLen_pos hdt hT)]
  · intro i hi
    rw [hlen] at hi
    rw [times, List.getD_eq_getElem?_getD, List.getElem?_map, List.getElem?_range hi]
    rfl
  · intro n
    rw [hlen]
    unfold arangeLen
    rw [Int.lt_toNat, Int.lt_ceil]
    push_cast
    exact (lt_div_iff₀ hdt).symm

/-- Claim C2 witness: instantiated at `dt = 1`, `Tmax = 1` (grid `[0]`). -/
theorem claim_C2_witness :
    (times 1 1).length = (⌈(1 : ℚ) / 1⌉).toNat ∧
    simulate 0 0 1 1 0 =
      .ok (times 1 1,
        (List.range ((times 1 1).length)).map (fun i => some (eulerSeq 0 0 1 0 i))) ∧
    ((List.range ((times 1 1).length)).map
        (fun i => some (eulerSeq 0 0 1 0 i))).length = (times 1 1).length ∧
    (∀ i : ℕ, i < (times 1 1).length → (times 1 1).getD i 0 = (i : ℚ) * 1) ∧
    (∀ n : ℕ, ((n : ℚ) * 1 < 1 ↔ n < (times 1 1).length)) :=
  claim_C2 0 0 1 1 0 one_pos one_pos

/-- Claim C5: whenever the cell returns a trajectory, its first element is
exactly `y0`. -/
theorem claim_C5 (k M dt Tmax y0 : ℚ) (ts : List ℚ) (ys : List (Option ℚ))
    (h : simulate k M dt Tmax y0 = .ok (ts, ys)) :
    ys.getD 0 none = some y0 := by
  obtain ⟨-, hN, -, hys⟩ := simulate_ok_inv h
  subst hys
  exact getD_map_eulerSeq k M dt y0 hN

/-- Claim C5 witness: the run with `k = M = dt = Tmax = 1`, `y0 = 7` has
first value `7`. -/
theorem claim_C5_witness : [some (7 : ℚ)].getD 0 none = some 7 := by
  refine claim_C5 1 1 1 1 7 [0] [some 7] ?_
  have hN : arangeLen 1 1 = 1 := by norm_num [arangeLen]; try rfl
  rw [simulate_ok 1 1 1 1 7 (by norm_num) (by omega)]
  rw [show times 1 1 = [0] by simp [times, hN, List.range_succ]]
  rw [hN]
  simp [List.range_succ, eulerSeq]

/-- Claim C6: if `y0 = 0` or `y0 = M` (the equilibria of
`F(y) = k * y * (M - y)`), every trajectory value equals `y0`. -/
theorem claim_C6 (k M dt Tmax y0 : ℚ) (ts : List ℚ) (ys : List (Option ℚ))
    (h : simulate k M dt Tmax y0 = .ok (ts, ys)) (h0 : y0 = 0 ∨ y0 = M)
    (i : ℕ) (hi : i < ys.length) :
    ys.getD i none = some y0 := by
  obtain ⟨-, -, -, hys⟩ := simulate_ok_inv h
  subst hys
  rw [length_map_eulerSeq] at hi
  rw [getD_map_eulerSeq k M dt y0 hi, eulerSeq_of_fixed_point k M dt y0 h0]

/-- Claim C6 witness: the run with `y0 = 0`, `M = 5`, `k = dt = Tmax = 1`
has value `0` at index 0. -/
theorem claim_C6_witness : [some (0 : ℚ)].getD 0 none = some 0 := by
  refine claim_C6 1 5 1 1 0 [0] [some 0] ?_ (Or.inl rfl) 0 (by norm_num)
  have hN : arangeLen 1 1 = 1 := by norm_num [arangeLen]; try rfl
  rw [simulate_ok 1 5 1 1 0 (by norm_num) (by omega)]
  rw [show times 1 1 = [0] by simp [times, hN, List.range_succ]]
  rw [hN]
  simp [List.range_succ, eulerSeq]

/-- Claim C9: the computation is a deterministic pure function of its
inputs; running the cell twice on the same parameters gives exactly equal
results. -/
theorem claim_C9 (k M dt Tmax y0 : ℚ) :
    (runTwice k M dt Tmax y0).1 = (runTwice k M dt Tmax y0).2 := rfl

/-- Claim C10: on a successful run every trajectory cell is initialized:
no `none` (uninitialized `np.empty_like` garbage) remains at any index. -/
theorem claim_C10 (k M dt Tmax y0 : ℚ) (ts : List ℚ) (ys : List (Option ℚ))
    (h : simulate k M dt Tmax y0 = .ok (ts, ys)) (i : ℕ) (hi : i < ys.length) :
    ∃ v : ℚ, ys.getD i none = some v := by
  obtain ⟨-, -, -, hys⟩ := simulate_ok_inv h
  subst hys
  rw [length_map_eulerSeq] at hi
  exact ⟨eulerSeq k M dt y0 i, getD_map_eulerSeq k M dt y0 hi⟩

/-- Claim C10 witness: index 1 of the two-point run with
`k = M = dt = 1`, `Tmax = 2`, `y0 = 1` holds a defined value. -/
theorem claim_C10_witness : ∃ v : ℚ, [some (1 : ℚ), some 1].getD 1 none = some v := by
  refine claim_C10 1 1 1 2 1 [0, 1] [some 1, some 1] ?_ 1 (by norm_num)
  have hN : arangeLen 1 2 = 2 := by norm_num [arangeLen]; try rfl
  rw [simulate_ok 1 1 1 2 1 (by norm_num) (by omega)]
  rw [show times 1 2 = [0, 1] by simp [times, hN, List.range_succ]]
  rw [hN]
  simp [List.range_succ, eulerSeq, eulerStep]

/-- Claim C3 counterexample: at `dt = -1 ≤ 0` with `Tmax = -2`, the cell
raises nothing and silently returns a two-point (descending-grid)
trajectory, so it does not reject every configuration with `dt ≤ 0`. -/
theorem claim_C3_cex :
    simulate 0 0 (-1) (-2) 0 = .ok ([0, -1], [some 0, some 0]) := by
  have hN : arangeLen (-1) (-2) = 2 := by norm_num [arangeLen]; try rfl
  rw [simulate_ok 0 0 (-1) (-2) 0 (by norm_num) (by omega)]
  rw [show times (-1) (-2) = [0, -1] by simp [times, hN, List.range_succ]]
  rw [hN]
  simp [List.range_succ, eulerSeq, eulerStep]

/-- Claim C3 (amended): for `dt ≤ 0` the cell raises an error in every
case except `dt < 0` with `Tmax < 0` — a division-by-zero from `np.arange`
whenever `dt = 0` (for any `Tmax`), an index error at `y[0] = y0` when
`dt < 0` and `Tmax ≥ 0` (empty grid); it neither loops nor silently
returns an empty result.  Only for `dt < 0` with `Tmax < 0` does the cell
instead return a trajectory over a descending grid (the counterexample). -/
theorem claim_C3 (k M dt Tmax y0 : ℚ) (hdt : dt ≤ 0) (h : dt = 0 ∨ 0 ≤ Tmax) :
    simulate k M dt Tmax y0 =
      .error (if dt = 0 then PyError.zeroDivision else PyError.indexError) := by
  rcases hdt.lt_or_eq with hlt | heq
  · have hne : dt ≠ 0 := hlt.ne
    have hT : 0 ≤ Tmax := h.resolve_left hne
    have h0 : Tmax / dt ≤ 0 := div_nonpos_iff.mpr (Or.inl ⟨hT, hlt.le⟩)
    have hlen0 : (times dt Tmax).length = 0 := by
      rw [length_times, arangeLen_eq_zero_of_div_nonpos h0]
    rw [simulate, if_neg hne, if_neg hne]
    simp [hlen0]
  · subst heq
    simp [simulate]

/-- Claim C3 witness: at `dt = 0` even with `Tmax = -5 < 0` the cell
raises the division-by-zero error. -/
theorem claim_C3_witness :
    simulate 0 0 0 (-5) 0 =
      .error (if (0 : ℚ) = 0 then PyError.zeroDivision else PyError.indexError) :=
  claim_C3 0 0 0 (-5) 0 le_rfl (Or.inl rfl)

/-- Claim C4 counterexample: at `Tmax = 0 ≤ 0` with `dt = 1 > 0` the cell
does not return the one-point trajectory `[y0]`; it raises an index error,
because the grid is empty and the assignment `y[0] = y0` is out of bounds. -/
theorem claim_C4_cex : simulate 0 0 1 0 5 = .error PyError.indexError := by
  have h0 : (0 : ℚ) / 1 ≤ 0 := by norm_num
  have hlen0 : (times 1 0).length = 0 := by
    rw [length_times, arangeLen_eq_zero_of_div_nonpos h0]
  rw [simulate, if_neg (by norm_num : (1 : ℚ) ≠ 0)]
  simp [hlen0]

/-- Claim C4 (amended): for `Tmax ≤ 0` and `dt > 0` the time grid is empty
and the cell raises an index error at the assignment `y[0] = y0`; it does
not return a trajectory containing the initial value. -/
theorem claim_C4 (k M dt Tmax y0 : ℚ) (hdt : 0 < dt) (hT : Tmax ≤ 0) :
    times dt Tmax = [] ∧ simulate k M dt Tmax y0 = .error PyError.indexError := by
  have h0 : Tmax / dt ≤ 0 := div_nonpos_iff.mpr (Or.inr ⟨hT, hdt.le⟩)
  have hN : arangeLen dt Tmax = 0 := arangeLen_eq_zero_of_div_nonpos h0
  refine ⟨by rw [times, hN]; rfl, ?_⟩
  have hlen0 : (times dt Tmax).length = 0 := by rw [length_times, hN]
  rw [simulate, if_neg hdt.ne']
  simp [hlen0]

/-- Claim C4 witness: at `dt = 1`, `Tmax = -1` the grid is empty and the
cell raises the index error. -/
theorem claim_C4_witness :
    times 1 (-1) = [] ∧ simulate 2 3 1 (-1) 5 = .error PyError.indexError :=
  claim_C4 2 3 1 (-1) 5 one_pos (by norm_num)

theorem eulerStep_between {k M dt y : ℚ} (hk : 0 < k) (hdt : 0 < dt)
    (h0 : 0 < y) (hM : y < M) (hs : dt * k * M ≤ 1) :
    y < eulerStep k M dt y ∧ eulerStep k M dt y < M := by
  constructor
  · have h : 0 < dt * k * y * (M - y) :=
      mul_pos (mul_pos (mul_pos hdt hk) h0) (sub_pos.mpr hM)
    unfold eulerStep
    linarith
  · have h1 : dt * k * y < dt * k * M := mul_lt_mul_of_pos_left hM (mul_pos hdt hk)
    have h2 : dt * k * y < 1 := lt_of_lt_of_le h1 hs
    have h3 : 0 < M - y := sub_pos.mpr hM
    have h4 : 0 < (M - y) * (1 - dt * k * y) := mul_pos h3 (by linarith)
    unfold eulerStep
    nlinarith [h4]

theorem eulerSeq_between (k M dt y0 : ℚ) (hk : 0 < k) (hdt : 0 < dt)
    (hs : dt * k * M ≤ 1) (h0 : 0 < y0) (hM : y0 < M) :
    ∀ n, 0 < eulerSeq k M dt y0 n ∧ eulerSeq k M dt y0 n < M
  | 0 => ⟨h0, hM⟩
  | n + 1 => by
    obtain ⟨ih0, ihM⟩ := eulerSeq_between k M dt y0 hk hdt hs h0 hM n
    obtain ⟨hlt, hup⟩ := eulerStep_between hk hdt ih0 ihM hs
    exact ⟨lt_trans ih0 hlt, hup⟩

theorem eulerSeq_step_lt (k M dt y0 : ℚ) (hk : 0 < k) (hdt : 0 < dt)
    (hs : dt * k * M ≤ 1) (h0 : 0 < y0) (hM : y0 < M) (n : ℕ) :
    eulerSeq k M dt y0 n < eulerSeq k M dt y0 (n + 1) := by
  obtain ⟨i0, iM⟩ := eulerSeq_between k M dt y0 hk hdt hs h0 hM n
  exact (eulerStep_between hk hdt i0 iM hs).1

theorem eulerStep_decr {k M dt y B : ℚ} (hk : 0 < k) (hdt : 0 < dt) (hM : 0 ≤ M)
    (hy : M < y) (hB : y ≤ B) (hs : dt * k * B < 1) :
    M < eulerStep k M dt y ∧ eulerStep k M dt y < y := by
  have hy0 : 0 < y := lt_of_le_of_lt hM hy
  have h1 : dt * k * y ≤ dt * k * B := mul_le_mul_of_nonneg_left hB (mul_pos hdt hk).le
  constructor
  · have h2 : dt * k * y < 1 := lt_of_le_of_lt h1 hs
    have h3 : 0 < (y - M) * (1 - dt * k * y) := mul_pos (sub_pos.mpr hy) (by linarith)
    unfold eulerStep
    nlinarith [h3]
  · have h4 : dt * k * y * (M - y) < 0 :=
      mul_neg_of_pos_of_neg (mul_pos (mul_pos hdt hk) hy0) (by linarith)
    unfold eulerStep
    linarith

theorem eulerSeq_decr (k M dt y0 B : ℚ) (hk : 0 < k) (hdt : 0 < dt) (hM : 0 ≤ M)
    (h1 : M < y0) (hB : y0 ≤ B) (hs : dt * k * B < 1) :
    ∀ n, M < eulerSeq k M dt y0 n ∧ eulerSeq k M dt y0 n ≤ B
  | 0 => ⟨h1, hB⟩
  | n + 1 => by
    obtain ⟨ihM, ihB⟩ := eulerSeq_decr k M dt y0 B hk hdt hM h1 hB hs n
    obtain ⟨hM2, hdec⟩ := eulerStep_decr hk hdt hM ihM ihB hs
    exact ⟨hM2, le_trans hdec.le ihB⟩

/-- Claim C7: for `k = 0.01`, `M = 100`, `dt = 0.1`, `Tmax = 10`, `y0 = 2`
the cell succeeds, the grid has exactly 100 points, the trajectory is the
Euler recurrence over those 100 indices, starts at `2`, and is strictly
increasing at every step. -/
theorem claim_C7 :
    simulate (1/100) 100 (1/10) 10 2 =
      .ok (times (1/10) 10,
        (List.range 100).map (fun i => some (eulerSeq (1/100) 100 (1/10) 2 i))) ∧
    (times (1/10) 10).length = 100 ∧
    eulerSeq (1/100) 100 (1/10) 2 0 = 2 ∧
    (∀ n : ℕ, eulerSeq (1/100) 100 (1/10) 2 n < eulerSeq (1/100) 100 (1/10) 2 (n + 1)) := by
  have hN : arangeLen (1/10) 10 = 100 := by norm_num [arangeLen]; try rfl
  refine ⟨?_, by rw [length_times, hN], rfl, ?_⟩
  · rw [simulate_ok _ _ _ _ _ (by norm_num) (by omega), hN]
  · intro n
    exact eulerSeq_step_lt (1/100) 100 (1/10) 2 (by norm_num) (by norm_num)
      (by norm_num) (by norm_num) (by norm_num) n

/-- Claim C8: for `y0 = 150`, `M = 100`, `k = 0.01`, `dt = 0.1`, `Tmax = 5`
the cell succeeds with a 50-point trajectory that is strictly decreasing at
every step and stays strictly above `M = 100` at every index. -/
theorem claim_C8 :
    simulate (1/100) 100 (1/10) 5 150 =
      .ok (times (1/10) 5,
        (List.range 50).map (fun i => some (eulerSeq (1/100) 100 (1/10) 150 i))) ∧
    (∀ n : ℕ, eulerSeq (1/100) 100 (1/10) 150 (n + 1) < eulerSeq (1/100) 100 (1/10) 150 n) ∧
    (∀ n : ℕ, 100 < eulerSeq (1/100) 100 (1/10) 150 n) := by
  have hN : arangeLen (1/10) 5 = 50 := by norm_num [arangeLen]; try rfl
  have inv := eulerSeq_decr (1/100) 100 (1/10) 150 150 (by norm_num) (by norm_num)
    (by norm_num) (by norm_num) le_rfl (by norm_num)
  refine ⟨?_, ?_, fun n => (inv n).1⟩
  · rw [simulate_ok _ _ _ _ _ (by norm_num) (by omega), hN]
  · intro n
    obtain ⟨ihM, ihB⟩ := inv n
    exact (eulerStep_decr (by norm_num) (by norm_num) (by norm_num) ihM ihB (by norm_num)).2

end DynSys
